import Mathlib

/-!
# Verification of the Agent_AI_News ingestion and deduplication pipeline

Shallow embedding of the parts of the `ai_news` Django application that the
specification talks about: the `NewsArticle.save` content fingerprint
(`models.py`), the two-tier duplicate detector (`src/deduplication.py`), the
orchestration service (`src/news_service.py`), the scraper factory
(`src/parsers/factory.py`) and the date parsing helper of the scraper base
class (`src/parsers/base.py`).

Machine integers are modelled as `Nat` with explicit reduction modulo `2^32`
where the SHA-256 algorithm works on 32-bit words; fallible Python code is
modelled with `Option`/`Except`; external services (OpenAI embeddings, the
Qdrant vector index, the database) are modelled as explicit parameters or
state that the embedded functions thread through.
-/

namespace AgentAINews

/-! ## SHA-256 (as used by `hashlib.sha256` in `models.py`)

Executable embedding of SHA-256 over byte lists (bytes are `Nat < 256`),
with 32-bit words represented as `Nat` reduced modulo `2^32`. -/

/-- Reduce to a 32-bit word. -/
def w32 (x : Nat) : Nat := x % 4294967296

/-- Rotation right by `n` bits in a 32-bit word. -/
def rotr (n x : Nat) : Nat := w32 (x / 2 ^ n + x % 2 ^ n * 2 ^ (32 - n))

/-- Logical right shift by `n`. -/
def shr (n x : Nat) : Nat := x / 2 ^ n

/-- SHA-256 round constants. -/
def sha256K : List Nat :=
  [1116352408, 1899447441, 3049323471, 3921009573, 961987163,
   1508970993, 2453635748, 2870763221, 3624381080, 310598401,
   607225278, 1426881987, 1925078388, 2162078206, 2614888103,
   3248222580, 3835390401, 4022224774, 264347078, 604807628,
   770255983, 1249150122, 1555081692, 1996064986, 2554220882,
   2821834349, 2952996808, 3210313671, 3336571891, 3584528711,
   113926993, 338241895, 666307205, 773529912, 1294757372,
   1396182291, 1695183700, 1986661051, 2177026350, 2456956037,
   2730485921, 2820302411, 3259730800, 3345764771, 3516065817,
   3600352804, 4094571909, 275423344, 430227734, 506948616,
   659060556, 883997877, 958139571, 1322822218, 1537002063,
   1747873779, 1955562222, 2024104815, 2227730452, 2361852424,
   2428436474, 2756734187, 3204031479, 3329325298]

/-- SHA-256 initial hash state. -/
def sha256H0 : List Nat :=
  [1779033703, 3144134277, 1013904242, 2773480762,
   1359893119, 2600822924, 528734635, 1541459225]

/-- Big-endian 8-byte encoding of a natural number (bit length field). -/
def bigEndian8 (n : Nat) : List Nat :=
  [n / 2 ^ 56 % 256, n / 2 ^ 48 % 256, n / 2 ^ 40 % 256, n / 2 ^ 32 % 256,
   n / 2 ^ 24 % 256, n / 2 ^ 16 % 256, n / 2 ^ 8 % 256, n % 256]

/-- SHA-256 padding: append `0x80`, zeros to 56 mod 64, then the 64-bit
big-endian bit length of the message. -/
def padMessage (msg : List Nat) : List Nat :=
  let L := msg.length
  let k := (119 - L % 64) % 64
  msg ++ [128] ++ List.replicate k 0 ++ bigEndian8 (8 * L)

/-- Group a byte list into big-endian 32-bit words. -/
def bytesToWords : List Nat → List Nat
  | b0 :: b1 :: b2 :: b3 :: rest =>
      (b0 * 2 ^ 24 + b1 * 2 ^ 16 + b2 * 2 ^ 8 + b3) :: bytesToWords rest
  | _ => []

/-- Split a byte list into 64-byte chunks (structural recursion on a fuel
counter so the definition reduces in the kernel; `fuel = l.length` always
suffices because each step drops at least one byte). -/
def chunks64Fuel : Nat → List Nat → List (List Nat)
  | 0, _ => []
  | _, [] => []
  | fuel + 1, x :: l => ((x :: l).take 64) :: chunks64Fuel fuel (l.drop 63)

/-- Split a byte list into 64-byte chunks. -/
def chunks64 (l : List Nat) : List (List Nat) := chunks64Fuel l.length l

/-- Message-schedule extension: given the first 16 words (reversed
accumulator), extend to 64 words. `acc` holds words in reverse order. -/
def extendSchedule : Nat → List Nat → List Nat
  | 0, acc => acc.reverse
  | n + 1, acc =>
      let w15 := acc.getD 14 0
      let w2 := acc.getD 1 0
      let w16 := acc.getD 15 0
      let w7 := acc.getD 6 0
      let s0 := (rotr 7 w15).xor ((rotr 18 w15).xor (shr 3 w15))
      let s1 := (rotr 17 w2).xor ((rotr 19 w2).xor (shr 10 w2))
      extendSchedule n (w32 (w16 + s0 + w7 + s1) :: acc)

/-- One round of the SHA-256 compression function. `st` is the list
`[a, b, c, d, e, f, g, h]`; `kw` is `k[i] + w[i]` for the round. -/
def sha256Round (st : List Nat) (kw : Nat) : List Nat :=
  match st with
  | [a, b, c, d, e, f, g, h] =>
      let S1 := (rotr 6 e).xor ((rotr 11 e).xor (rotr 25 e))
      let ch := (e.land f).xor ((4294967295 - e).land g)
      let temp1 := w32 (h + S1 + ch + kw)
      let S0 := (rotr 2 a).xor ((rotr 13 a).xor (rotr 22 a))
      let maj := (a.land b).xor ((a.land c).xor (b.land c))
      let temp2 := w32 (S0 + maj)
      [w32 (temp1 + temp2), a, b, c, w32 (d + temp1), e, f, g]
  | other => other

/-- Process one 512-bit chunk, updating the 8-word hash state. -/
def sha256Chunk (h : List Nat) (chunk : List Nat) : List Nat :=
  let w16 := bytesToWords chunk
  let w := extendSchedule 48 w16.reverse
  let kw := sha256K.zipWith (fun k wi => k + wi) w
  let st := kw.foldl sha256Round h
  (h.zipWith (fun x y => w32 (x + y)) st)

/-- SHA-256 digest of a byte list, as a list of 32 bytes. -/
def sha256Bytes (msg : List Nat) : List Nat :=
  let final := (chunks64 (padMessage msg)).foldl sha256Chunk sha256H0
  final.foldr (fun word acc =>
    word / 2 ^ 24 % 256 :: word / 2 ^ 16 % 256 :: word / 2 ^ 8 % 256 ::
      word % 256 :: acc) []

/-- Lower-case hexadecimal digit. -/
def hexDigit (n : Nat) : Char :=
  "0123456789abcdef".toList.getD n 'x'

/-- Lower-case hex string of a byte list (`hexdigest()` in Python). -/
def hexDigest (bytes : List Nat) : String :=
  String.mk (bytes.foldr (fun b acc => hexDigit (b / 16) :: hexDigit (b % 16) :: acc) [])

/-- UTF-8 encoding of a single character (code point to 1–4 bytes). -/
def utf8EncodeChar (c : Char) : List Nat :=
  let n := c.toNat
  if n < 128 then [n]
  else if n < 2048 then [192 + n / 64, 128 + n % 64]
  else if n < 65536 then [224 + n / 4096, 128 + n / 64 % 64, 128 + n % 64]
  else [240 + n / 262144, 128 + n / 4096 % 64, 128 + n / 64 % 64, 128 + n % 64]

/-- UTF-8 byte encoding of a string (`str.encode('utf-8')`). -/
def utf8Encode (s : String) : List Nat :=
  s.toList.foldr (fun c acc => utf8EncodeChar c ++ acc) []

/-- Embedding of `hashlib.sha256(text.encode('utf-8')).hexdigest()`. -/
def sha256HexUtf8 (text : String) : String :=
  hexDigest (sha256Bytes (utf8Encode text))

/-- Content fingerprint of `NewsArticle.save` (`models.py` lines 25–30):
SHA-256 hex digest of the UTF-8 bytes of `title + content`. -/
def fingerprint (title content : String) : String :=
  sha256HexUtf8 (title ++ content)

/-! ## Python string primitives

Executable embeddings of the Python string methods the code uses
(`str.lower`, `str.replace`, `str.endswith`), over code-point lists so
they reduce inside the kernel. All strings these are applied to in the
repository are ASCII in the relevant positions. -/

/-- Lowercasing of one code point (ASCII range: add 32 to `A`–`Z`). -/
def pyLowerChar (c : Char) : Char :=
  if 'A' ≤ c ∧ c ≤ 'Z' then Char.ofNat (c.toNat + 32) else c

/-- Python `s.lower()`. -/
def pyLower (s : String) : String :=
  String.mk (s.toList.map pyLowerChar)

/-- Left-to-right, non-overlapping replacement of a non-empty pattern in a
code-point list; `fuel` bounds the recursion (`fuel = l.length` suffices). -/
def replaceAux (pat rep : List Char) : Nat → List Char → List Char
  | 0, l => l
  | _ + 1, [] => []
  | fuel + 1, x :: xs =>
      if pat.isPrefixOf (x :: xs) ∧ pat ≠ [] then
        rep ++ replaceAux pat rep fuel ((x :: xs).drop pat.length)
      else x :: replaceAux pat rep fuel xs

/-- Python `s.replace(pat, rep)` for a non-empty pattern. -/
def pyReplace (s pat rep : String) : String :=
  String.mk (replaceAux pat.toList rep.toList s.toList.length s.toList)

/-- Python `s.endswith(t)`. -/
def pyEndsWith (s t : String) : Bool :=
  t.toList.isSuffixOf s.toList

/-! ## Data model (`models.py`)

`NewsArticle` rows. Datetimes are modelled as `Nat` (seconds). The store
(the Django database table) is a `List StoredArticle` in query order
(`Meta.ordering`), and the Qdrant vector index is a list of
`(article_id, indexed text)` points. -/

structure StoredArticle where
  id : Nat
  title : String
  content : String
  url : String
  source : String
  publishedDate : Nat
  scrapedDate : Nat
  /-- Field `content_hash`; the empty string models an unset (falsy) hash. -/
  contentHash : String
  isDuplicate : Bool
  /-- Foreign key `duplicate_of`, by article id. -/
  duplicateOf : Option Nat
deriving DecidableEq

/-- Embedding of `NewsArticle.save` (`models.py` lines 25–30): computes the SHA-256
content hash over `title + content` only when `content_hash` is not yet
set, then persists. -/
def StoredArticle.save (a : StoredArticle) : StoredArticle :=
  if a.contentHash = "" then
    { a with contentHash := fingerprint a.title a.content }
  else a

/-! ## Deduplication (`src/deduplication.py`)

External services (OpenAI embeddings, Qdrant) are modelled by a `DedupEnv`:
an abstract similarity oracle plus flags saying whether the external calls
raise. The vector index content is passed and returned explicitly. -/

/-- External-service environment for the semantic deduplicator. -/
structure DedupEnv where
  /-- Similarity oracle of the external index: `score query indexedText`. -/
  score : String → String → Rat
  /-- Threshold `similarity_threshold` (default `0.85`). -/
  threshold : Rat
  /-- The embedding/search call inside `find_similar_articles` raises. -/
  embedFails : Bool
  /-- The `add_documents` call inside `add_article_to_index` raises. -/
  addFails : Bool

/-- Embedding of `VectorDeduplicator._create_searchable_text`, which builds the query text from title and content separated by one space. -/
def create_searchable_text (a : StoredArticle) : String :=
  a.title ++ " " ++ a.content

/-- Hits ordered by descending relevance score (ties keep input order),
using Mathlib's insertion sort. -/
def sortByScoreDesc (l : List (Nat × Rat)) : List (Nat × Rat) :=
  l.insertionSort (fun p q => q.2 ≤ p.2)

/-- Modelled from the spec: the LangChain/Qdrant call
`similarity_search_with_relevance_scores(query, k, score_threshold)` is
library code outside this repository; per the spec it queries the external
vector index restricted to `score ≥ threshold` and returns at most `k`
hits `(article_id, score)` ordered by descending score. -/
def similarity_search_with_relevance_scores (index : List (Nat × String))
    (score : String → String → Rat) (threshold : Rat) (query : String)
    (k : Nat) : List (Nat × Rat) :=
  (sortByScoreDesc
    ((index.map (fun e => (e.1, score query e.2))).filter
      (fun h => threshold ≤ h.2))).take k

/-- Embedding of `VectorDeduplicator.find_similar_articles` (lines 224–281): on an
external-service error returns `[]`; otherwise converts hits back to
stored articles, skipping falsy ids (`0`), the queried article's own id,
and ids that no longer exist in the store. -/
def find_similar_articles (env : DedupEnv) (index : List (Nat × String))
    (store : List StoredArticle) (a : StoredArticle) (limit : Nat) :
    List (StoredArticle × Rat) :=
  if env.embedFails then []
  else
    (similarity_search_with_relevance_scores index env.score env.threshold
        (create_searchable_text a) limit).filterMap
      (fun h =>
        if h.1 ≠ 0 ∧ h.1 ≠ a.id then
          match store.find? (fun b => b.id == h.1) with
          | some b => some (b, h.2)
          | none => none
        else none)

/-- Embedding of `VectorDeduplicator.check_and_mark_duplicates` (lines 307–321): marks
the article as a duplicate of the top hit iff `find_similar_articles`
(with its default `limit = 5`) returns at least one hit. -/
def check_and_mark_duplicates (env : DedupEnv) (index : List (Nat × String))
    (store : List StoredArticle) (a : StoredArticle) :
    StoredArticle × Bool :=
  match find_similar_articles env index store a 5 with
  | [] => (a, false)
  | (orig, _) :: _ =>
      ({ a with isDuplicate := true, duplicateOf := some orig.id }, true)

/-- Embedding of `VectorDeduplicator.add_article_to_index` (lines 283–305): on success
adds the `(id, searchable text)` point and returns `true`; an external
error is caught, logged and reported as `false` with the index unchanged.
The `Nat` component counts embedding-service calls attempted. -/
def add_article_to_index (env : DedupEnv) (index : List (Nat × String))
    (a : StoredArticle) : Bool × List (Nat × String) × Nat :=
  if env.addFails then (false, index, 1)
  else (true, index ++ [(a.id, create_searchable_text a)], 2)

/-- Embedding of `ContentHashDeduplicator.find_hash_duplicates` (lines 383–395):
first stored article (in query order) with the same `content_hash` and a
different id. -/
def find_hash_duplicates (store : List StoredArticle) (a : StoredArticle) :
    Option StoredArticle :=
  (store.filter (fun b => b.contentHash == a.contentHash && b.id != a.id)).head?

/-- Embedding of `ContentHashDeduplicator.mark_as_hash_duplicate` (lines 397–403). -/
def mark_as_hash_duplicate (a orig : StoredArticle) : StoredArticle :=
  { a with isDuplicate := true, duplicateOf := some orig.id }

/-- Result of `DuplicationService.process_article_for_duplicates`: the
(possibly re-marked) article, the returned boolean, the vector index
afterwards, and the number of embedding-service calls attempted. -/
structure ProcResult where
  article : StoredArticle
  isDup : Bool
  index : List (Nat × String)
  embedCalls : Nat
deriving DecidableEq

/-- Embedding of `DuplicationService.process_article_for_duplicates` (lines 432–447):
exact hash check first (no embedding work); else the semantic check (one
query-embedding call); else index the article as canonical. -/
def process_article_for_duplicates (env : DedupEnv)
    (index : List (Nat × String)) (store : List StoredArticle)
    (a : StoredArticle) : ProcResult :=
  match find_hash_duplicates store a with
  | some orig => ⟨mark_as_hash_duplicate a orig, true, index, 0⟩
  | none =>
      match check_and_mark_duplicates env index store a with
      | (a1, true) => ⟨a1, true, index, 1⟩
      | (a1, false) =>
          let r := add_article_to_index env index a1
          ⟨a1, false, r.2.1, 1 + r.2.2⟩

/-! ## Orchestration (`src/news_service.py`) -/

/-- Raw article data produced by a scraper (`NewsArticleData` in
`parsers/base.py`). -/
structure RawArticle where
  title : String
  content : String
  url : String
  source : String
  /-- Field `published_date`; `none` models Python `None` (falsy). -/
  publishedDate : Option Nat
deriving DecidableEq

/-- Pipeline state: the article store, the vector index, the next database
id, and a running count of embedding-service calls. -/
structure PipeState where
  store : List StoredArticle
  index : List (Nat × String)
  nextId : Nat
  embedCallsTotal : Nat
deriving DecidableEq

/-- Python string slicing `s[:n]`: the first `n` code points. -/
def pyTruncate (s : String) (n : Nat) : String :=
  String.mk (s.toList.take n)

/-- The `NewsArticle(...)` construction inside `scrape_single_source`
(`news_service.py` lines 228–236): the title is truncated to 500
characters for the DB constraint, `published_date` falls back to now, and
`content_hash` is not yet set. -/
def mkArticle (id now : Nat) (raw : RawArticle) : StoredArticle :=
  { id := id
    title := pyTruncate raw.title 500
    content := raw.content
    url := raw.url
    source := raw.source
    publishedDate := raw.publishedDate.getD now
    scrapedDate := now
    contentHash := ""
    isDuplicate := false
    duplicateOf := none }

/-- The per-article body of the loop in `scrape_single_source`
(lines 220–251): skip when the URL already exists (before any hashing or
embedding work), else create and save the article (computing the content
hash), run the deduplication pipeline, and count it when unique. -/
def processRawArticle (env : DedupEnv) (now : Nat) (acc : Nat × PipeState)
    (raw : RawArticle) : Nat × PipeState :=
  if acc.2.store.any (fun b => b.url == raw.url) then acc
  else
    let a := (mkArticle acc.2.nextId now raw).save
    let r := process_article_for_duplicates env acc.2.index (acc.2.store ++ [a]) a
    (acc.1 + (if r.isDup then 0 else 1),
     { store := acc.2.store ++ [r.article]
       index := r.index
       nextId := acc.2.nextId + 1
       embedCallsTotal := acc.2.embedCallsTotal + r.embedCalls })

/-- Embedding of `NewsOrchestrationService.scrape_single_source` (lines 168–259): a
scraper-level failure (adapter fetch error) is caught, logged and turned
into a zero count with no state change; otherwise every raw article is
processed in order. -/
def scrape_single_source (env : DedupEnv) (now : Nat)
    (fetch : Except String (List RawArticle)) (st : PipeState) :
    Nat × PipeState :=
  match fetch with
  | .error _ => (0, st)
  | .ok raws => raws.foldl (processRawArticle env now) (0, st)

/-- Embedding of `NewsOrchestrationService.scrape_all_sources` (lines 106–166):
sequentially runs every registered source with per-source error
isolation, aggregating a `name → count` results map that has one entry
per source. -/
def scrape_all_sources (env : DedupEnv) (now : Nat)
    (sources : List (String × Except String (List RawArticle)))
    (st : PipeState) : List (String × Nat) × PipeState :=
  sources.foldl
    (fun acc src =>
      let r := scrape_single_source env now src.2 acc.2
      (acc.1 ++ [(src.1, r.1)], r.2))
    ([], st)

/-- Observable events of a cleanup sweep, in execution order. -/
inductive CleanupEvent where
  /-- Event: `remove_article_from_index(id)` was attempted (it never raises:
  failures are caught and logged inside, recorded here as `success`). -/
  | removeVector (id : Nat) (success : Bool)
  /-- The bulk `old_articles.delete()` of all selected rows. -/
  | deleteRows (ids : List Nat)
deriving DecidableEq

/-- Seconds per day, for `timedelta(days=days)`. -/
def secondsPerDay : Nat := 86400

/-- Embedding of `NewsOrchestrationService.cleanup_old_articles` (lines 571–637,
default `days = 30`): selects rows with `scraped_date < cutoff`, first
attempts to remove each one's vector from the external index (failures
logged, never blocking), then bulk-deletes the selected rows. Returns the
removed count, the new state and the event trace. -/
def cleanup_old_articles (removeOk : Nat → Bool) (now : Nat)
    (st : PipeState) (days : Nat) : Nat × PipeState × List CleanupEvent :=
  let cutoff := now - days * secondsPerDay
  let old := st.store.filter (fun a => a.scrapedDate < cutoff)
  let events :=
    old.map (fun a => CleanupEvent.removeVector a.id (removeOk a.id)) ++
      [CleanupEvent.deleteRows (old.map (fun a => a.id))]
  (old.length,
   { st with
     store := st.store.filter (fun a => ¬ a.scrapedDate < cutoff)
     index := st.index.filter
       (fun e => ¬ old.any (fun a => a.id == e.1 && removeOk a.id)) },
   events)

/-! ## Scraper factory (`src/parsers/factory.py`)

The registry maps derived names to scraper class names. A Python `dict`
keyed by the derived name is modelled as an association list where
inserting an existing key overwrites it. -/

/-- Name generation in `ScraperFactory._discover_scrapers` (line 91):
`name.lower().replace('scraper', '')` — lowercase, then delete every
occurrence of the substring `"scraper"`. -/
def deriveScraperName (className : String) : String :=
  pyReplace (pyLower className) "scraper" ""

/-- Insert into the registry, overwriting any binding of the same key. -/
def registryInsert (reg : List (String × String)) (name cls : String) :
    List (String × String) :=
  (reg.filter (fun e => e.1 ≠ name)) ++ [(name, cls)]

/-- Embedding of `ScraperFactory._discover_scrapers` (lines 41–104): register each
discovered scraper class under its derived name. -/
def discover_scrapers (classNames : List String) : List (String × String) :=
  classNames.foldl (fun reg c => registryInsert reg (deriveScraperName c) c) []

/-- Registry lookup by exact key. -/
def registryLookup (reg : List (String × String)) (name : String) :
    Option String :=
  (reg.find? (fun e => e.1 = name)).map (fun e => e.2)

/-- Embedding of `ScraperFactory.get_available_scrapers`: the registered names. -/
def availableNames (reg : List (String × String)) : List String :=
  reg.map (fun e => e.1)

/-- Embedding of `ScraperFactory.create_scraper` (lines 106–144): case-insensitive
lookup (the argument is lowercased); an unknown name raises `ValueError`
with a message listing the available names. -/
def create_scraper (reg : List (String × String)) (t : String) :
    Except String String :=
  match registryLookup reg (pyLower t) with
  | some cls => .ok cls
  | none =>
      .error ("Unknown scraper type: " ++ t ++ ". Available: " ++
        String.intercalate ", " (availableNames reg))

/-- The scraper class names defined under `src/parsers/` that
auto-discovery scans (every subclass of `BaseScraper` except the base
classes' module files `base.py` and `factory.py`; `RSSFeedScraper` from
`rss_base.py` is itself discovered). -/
def realScraperClassNames : List String :=
  ["AIBusinessScraper", "AIMagazineScraper", "AINewsScraper",
   "AnalyticsInsightScraper", "AnalyticsVidhyaScraper", "ArsTechnicaScraper",
   "ArxivAIScraper", "AWSMLBlogScraper", "BAIRBlogScraper",
   "DeepMindBlogScraper", "DistillScraper", "EmerjScraper", "FastMLScraper",
   "ForbesAIScraper", "GoogleAIBlogScraper", "HackerNewsAIScraper",
   "HackerNewsScraper", "KDnuggetsScraper", "LastWeekInAIScraper",
   "MarkTechPostScraper", "MITTechReviewScraper", "MLMasteryScraper",
   "OpenAIBlogScraper", "RedditMachineLeaningScraper", "RSSFeedScraper",
   "ScienceDailyAIScraper", "TechCrunchAIScraper", "TechCrunchScraper",
   "TheVergeAIScraper", "TheVergeScraper", "TowardsDataScienceScraper",
   "UniteAIScraper", "VentureBeatAIScraper", "WiredAIScraper"]

/-! ## Date parsing (`src/parsers/base.py`, `BaseScraper._parse_date`)

Python exceptions are modelled with `Except PyExc`; the standard-library
parsers `datetime.fromisoformat` and `email.utils.parsedate_to_datetime`
are abstract fallible parameters over an arbitrary datetime type. -/

/-- Python exception classes relevant to `_parse_date`. -/
inductive PyExc where
  | valueError
  | typeError
  | attributeError
  | other
deriving DecidableEq

/-- Embedding of `BaseScraper._parse_date` (lines 144–190), translated try/except by
try/except: empty input returns now; a string ending in `'Z'` has every
`'Z'` replaced by `"+00:00"` before the ISO parse; on `ValueError` or
`AttributeError` the RFC 2822 parser is tried; on its `ValueError` or
`TypeError` the fallback is now (with a logged warning). Any exception
outside the except clauses would propagate as `.error`. -/
def parse_date {DT : Type} (fromisoformat : String → Except PyExc DT)
    (parsedate_to_datetime : String → Except PyExc DT) (now : DT)
    (s : String) : Except PyExc DT :=
  if s = "" then .ok now
  else
    match
      (if pyEndsWith s "Z" then fromisoformat (pyReplace s "Z" "+00:00")
       else fromisoformat s) with
    | .ok d => .ok d
    | .error e =>
        if e = .valueError ∨ e = .attributeError then
          match parsedate_to_datetime s with
          | .ok d => .ok d
          | .error e2 =>
              if e2 = .valueError ∨ e2 = .typeError then .ok now
              else .error e2
        else .error e

/-! ## Theorems -/

/-- Sample article with an unset content hash, for concrete witnesses. -/
def sampleArticle : StoredArticle :=
  { id := 1, title := "Tytuł", content := "treść", url := "https://e.x/1",
    source := "s", publishedDate := 0, scrapedDate := 0, contentHash := "",
    isDuplicate := false, duplicateOf := none }

/-- C5: the content hash set by `NewsArticle.save` is the hexadecimal
SHA-256 digest of the UTF-8 bytes of `title + content`; it is a function
of that concatenation alone (hence deterministic); once set it is never
recomputed or overwritten by a later save. -/
theorem contentHash_sha256_write_once :
    (∀ a : StoredArticle, a.contentHash = "" →
      a.save.contentHash = hexDigest (sha256Bytes (utf8Encode (a.title ++ a.content))))
    ∧ (∀ t c t' c' : String, t ++ c = t' ++ c' → fingerprint t c = fingerprint t' c')
    ∧ (∀ a : StoredArticle, a.contentHash ≠ "" → a.save.contentHash = a.contentHash)
    ∧ (∀ a : StoredArticle, a.save.save = a.save) := by
  refine ⟨?_, ?_, ?_, ?_⟩
  · intro a h
    simp [StoredArticle.save, h, fingerprint, sha256HexUtf8]
  · intro t c t' c' h
    simp [fingerprint, sha256HexUtf8, h]
  · intro a h
    simp [StoredArticle.save, h]
  · intro a
    by_cases h : a.contentHash = "" <;> simp [StoredArticle.save, h]

/-- Witness for C5 at a concrete article (digest cross-checked against
`hashlib.sha256("Tytułtreść".encode()).hexdigest()`). -/
theorem contentHash_sha256_write_once_witness :
    sampleArticle.save.contentHash
        = hexDigest (sha256Bytes (utf8Encode ("Tytuł" ++ "treść")))
      ∧ sampleArticle.save.save = sampleArticle.save :=
  ⟨contentHash_sha256_write_once.1 sampleArticle rfl,
   contentHash_sha256_write_once.2.2.2 sampleArticle⟩

/-- C10: the persisted title is exactly the first 500 characters of the
raw title and the content hash is computed over that truncated title plus
the full content, so raw articles agreeing on the first 500 title
characters and on content hash identically. -/
theorem title_truncation_hash (id now : Nat) (raw : RawArticle) :
    ((mkArticle id now raw).save).title = pyTruncate raw.title 500
    ∧ ((mkArticle id now raw).save).contentHash
        = fingerprint (pyTruncate raw.title 500) raw.content
    ∧ ∀ id2 now2 (raw2 : RawArticle),
        pyTruncate raw.title 500 = pyTruncate raw2.title 500 →
        raw.content = raw2.content →
        ((mkArticle id now raw).save).contentHash
          = ((mkArticle id2 now2 raw2).save).contentHash := by
  refine ⟨?_, ?_, ?_⟩
  · simp [mkArticle, StoredArticle.save]
  · simp [mkArticle, StoredArticle.save]
  · intro id2 now2 raw2 ht hc
    simp [mkArticle, StoredArticle.save, ht, hc]

/-- A raw article whose 501-character title ends in `'b'`. -/
def longTitleRawB : RawArticle :=
  { title := String.mk (List.replicate 500 'a' ++ ['b']), content := "x",
    url := "https://e.x/b", source := "s", publishedDate := none }

/-- A raw article whose 501-character title ends in `'c'`. -/
def longTitleRawC : RawArticle :=
  { title := String.mk (List.replicate 500 'a' ++ ['c']), content := "x",
    url := "https://e.x/c", source := "s", publishedDate := none }

/-- Witness for C10: two distinct full titles agreeing on their first 500
characters give the same content hash. -/
theorem title_truncation_hash_witness :
    longTitleRawB.title ≠ longTitleRawC.title
    ∧ ((mkArticle 1 0 longTitleRawB).save).contentHash
        = ((mkArticle 2 0 longTitleRawC).save).contentHash := by
  constructor
  · intro h
    have h2 := congrArg (fun s => s.data.getLast?) h
    simp only [longTitleRawB, longTitleRawC, List.getLast?_concat] at h2
    exact absurd (Option.some.inj h2) (by decide)
  · refine (title_truncation_hash 1 0 longTitleRawB).2.2 2 0 longTitleRawC ?_ rfl
    show String.mk ((List.replicate 500 'a' ++ ['b']).take 500)
        = String.mk ((List.replicate 500 'a' ++ ['c']).take 500)
    rw [List.take_left' (List.length_replicate _ _),
      List.take_left' (List.length_replicate _ _)]

/-- C7 counterexample: with the registry that auto-discovery builds from
the repository's scraper class names, the derived name for
`OpenAIBlogScraper` is `"openaiblog"` (lowercase, every `"scraper"`
substring deleted — no underscore is ever inserted), so neither
`create("OpenAI_Blog")` nor `create("openai_blog")` resolves to an
adapter type: both raise `ValueError`. -/
theorem factory_underscore_cex :
    deriveScraperName "OpenAIBlogScraper" = "openaiblog"
    ∧ registryLookup (discover_scrapers realScraperClassNames) "openai_blog" = none
    ∧ (create_scraper (discover_scrapers realScraperClassNames) "openai_blog").toOption = none
    ∧ (create_scraper (discover_scrapers realScraperClassNames) "OpenAI_Blog").toOption = none := by
  refine ⟨by decide, by decide, by decide, by decide⟩

/-- C7 (amended): `create` lookup is case-insensitive — two names with the
same lowercasing resolve to the same adapter type — because discovery
derives each registry name by lowercasing the class name and deleting
every occurrence of `"scraper"` (for the conventional class names this is
stripping the `Scraper` suffix and lowercasing, with no underscores), and
`create` lowercases its argument before lookup; so
`create("OpenAIBlog")` and `create("openaiblog")` both resolve to
`OpenAIBlogScraper`, and a name not in the registry fails with an error
message listing all known names. -/
theorem factory_case_insensitive :
    (∀ reg (s t : String), pyLower s = pyLower t →
       ∀ cls, create_scraper reg s = .ok cls ↔ create_scraper reg t = .ok cls)
    ∧ create_scraper (discover_scrapers realScraperClassNames) "OpenAIBlog"
        = .ok "OpenAIBlogScraper"
    ∧ create_scraper (discover_scrapers realScraperClassNames) "openaiblog"
        = .ok "OpenAIBlogScraper"
    ∧ (∀ reg t, registryLookup reg (pyLower t) = none →
        create_scraper reg t = .error ("Unknown scraper type: " ++ t ++
          ". Available: " ++ String.intercalate ", " (availableNames reg))) := by
  refine ⟨?_, by rfl, by rfl, ?_⟩
  · intro reg s t h cls
    unfold create_scraper
    rw [h]
    cases registryLookup reg (pyLower t) <;> simp
  · intro reg t h
    unfold create_scraper
    rw [h]

/-- Witness for C7 (amended): the case-insensitivity clause at a concrete
registry and pair of names, and the unknown-name error at a concrete
registry. -/
theorem factory_case_insensitive_witness :
    (create_scraper (discover_scrapers ["OpenAIBlogScraper"]) "OpenAIBlog"
        = .ok "OpenAIBlogScraper"
      ↔ create_scraper (discover_scrapers ["OpenAIBlogScraper"]) "openaiblog"
        = .ok "OpenAIBlogScraper")
    ∧ create_scraper (discover_scrapers ["OpenAIBlogScraper"]) "openai_blog"
        = .error ("Unknown scraper type: " ++ "openai_blog" ++ ". Available: " ++
            String.intercalate ", "
              (availableNames (discover_scrapers ["OpenAIBlogScraper"]))) :=
  ⟨factory_case_insensitive.1 (discover_scrapers ["OpenAIBlogScraper"])
      "OpenAIBlog" "openaiblog" (by decide) "OpenAIBlogScraper",
   factory_case_insensitive.2.2.2 (discover_scrapers ["OpenAIBlogScraper"])
      "openai_blog" (by decide)⟩

/-- Stub ISO-8601 parser for the C9 witness: accepts exactly one
offset-carrying timestamp, raising `ValueError` otherwise (as
`datetime.fromisoformat` does on unparseable input). -/
def isoStub : String → Except PyExc Nat := fun t =>
  if t = "2024-08-26T15:21:19+00:00" then .ok 1 else .error .valueError

/-- Stub RFC 2822 parser for the C9 witness: always raises `ValueError`. -/
def rfcStub : String → Except PyExc Nat := fun _ => .error .valueError

/-- C9: `_parse_date` is total — whenever the ISO parser raises only
`ValueError` and the RFC 2822 parser raises only `ValueError` or
`TypeError` (the exceptions those library parsers are specified to
raise), it returns a datetime for every input string and never
propagates an exception; the empty string returns now, a string ending in
`'Z'` is parsed as ISO-8601 after its `'Z'` is rewritten to the explicit
`+00:00` offset, other strings are tried as bare ISO-8601, the RFC 2822
parser is tried after an ISO failure, and if both fail the result is the
current time. -/
theorem parse_date_total {DT : Type}
    (fromisoformat parsedate_to_datetime : String → Except PyExc DT) (now : DT)
    (hiso : ∀ t, (∃ d, fromisoformat t = .ok d) ∨
        fromisoformat t = .error .valueError)
    (hrfc : ∀ t, (∃ d, parsedate_to_datetime t = .ok d) ∨
        parsedate_to_datetime t = .error .valueError ∨
        parsedate_to_datetime t = .error .typeError) :
    ∀ s : String,
    (∃ d, parse_date fromisoformat parsedate_to_datetime now s = .ok d)
    ∧ (s = "" → parse_date fromisoformat parsedate_to_datetime now s = .ok now)
    ∧ (∀ d, s ≠ "" → pyEndsWith s "Z" = true →
        fromisoformat (pyReplace s "Z" "+00:00") = .ok d →
        parse_date fromisoformat parsedate_to_datetime now s = .ok d)
    ∧ (∀ d, s ≠ "" → pyEndsWith s "Z" = false → fromisoformat s = .ok d →
        parse_date fromisoformat parsedate_to_datetime now s = .ok d)
    ∧ (∀ d e, s ≠ "" →
        (if pyEndsWith s "Z" then fromisoformat (pyReplace s "Z" "+00:00")
         else fromisoformat s) = .error e →
        parsedate_to_datetime s = .ok d →
        parse_date fromisoformat parsedate_to_datetime now s = .ok d)
    ∧ (∀ e, s ≠ "" →
        (if pyEndsWith s "Z" then fromisoformat (pyReplace s "Z" "+00:00")
         else fromisoformat s) = .error e →
        (parsedate_to_datetime s = .error .valueError ∨
         parsedate_to_datetime s = .error .typeError) →
        parse_date fromisoformat parsedate_to_datetime now s = .ok now) := by
  intro s
  by_cases hs : s = ""
  · subst hs
    refine ⟨⟨now, rfl⟩, fun _ => rfl, ?_, ?_, ?_, ?_⟩ <;>
      intro _ h <;> simp_all
  · have hiso' := hiso (if pyEndsWith s "Z" then pyReplace s "Z" "+00:00" else s)
    refine ⟨?_, fun h => absurd h hs, ?_, ?_, ?_, ?_⟩
    · rcases hiso' with ⟨d, hd⟩ | hd
      · refine ⟨d, ?_⟩
        unfold parse_date
        rw [if_neg hs]
        rcases hz : pyEndsWith s "Z" with _ | _ <;> simp [hz] at hd <;>
          simp [hz, hd]
      · have hif : (if pyEndsWith s "Z" then fromisoformat (pyReplace s "Z" "+00:00")
            else fromisoformat s) = .error .valueError := by
          rcases hz : pyEndsWith s "Z" with _ | _ <;> simp [hz] at hd <;>
            simp [hz, hd]
        rcases hrfc s with ⟨d, hd2⟩ | hd2 | hd2
        · exact ⟨d, by unfold parse_date; rw [if_neg hs, hif]; simp [hd2]⟩
        · exact ⟨now, by unfold parse_date; rw [if_neg hs, hif]; simp [hd2]⟩
        · exact ⟨now, by unfold parse_date; rw [if_neg hs, hif]; simp [hd2]⟩
    · intro d hne hz hd
      unfold parse_date
      rw [if_neg hs, if_pos (by simp [hz]), hd]
    · intro d hne hz hd
      unfold parse_date
      rw [if_neg hs, if_neg (by simp [hz]), hd]
    · intro d e hne hiso2 hd
      unfold parse_date
      rw [if_neg hs, hiso2]
      have he : e = PyExc.valueError := by
        rcases hiso' with ⟨d2, hd2⟩ | hd2 <;>
          rcases hz : pyEndsWith s "Z" with _ | _ <;>
            simp [hz] at hiso2 hd2 <;> simp [hiso2] at hd2 <;> simp [hd2]
      subst he
      simp [hd]
    · intro e hne hiso2 hd
      unfold parse_date
      rw [if_neg hs, hiso2]
      have he : e = PyExc.valueError := by
        rcases hiso' with ⟨d2, hd2⟩ | hd2 <;>
          rcases hz : pyEndsWith s "Z" with _ | _ <;>
            simp [hz] at hiso2 hd2 <;> simp [hiso2] at hd2 <;> simp [hd2]
      subst he
      rcases hd with hd | hd <;> simp [hd]

/-- Witness for C9: the stub parsers satisfy the exception discipline, and
the `'Z'`-suffixed timestamp is parsed via the offset-rewriting ISO path. -/
theorem parse_date_total_witness :
    parse_date isoStub rfcStub 0 "2024-08-26T15:21:19Z" = .ok 1 ∧
    parse_date isoStub rfcStub 0 "" = .ok 0 ∧
    parse_date isoStub rfcStub 0 "not a date" = .ok 0 := by
  have hiso : ∀ t, (∃ d, isoStub t = .ok d) ∨ isoStub t = .error .valueError := by
    intro t
    by_cases h : t = "2024-08-26T15:21:19+00:00" <;> simp [isoStub, h]
  have hrfc : ∀ t, (∃ d, rfcStub t = .ok d) ∨
      rfcStub t = .error .valueError ∨ rfcStub t = .error .typeError := by
    intro t
    simp [rfcStub]
  refine ⟨?_, ?_, ?_⟩
  · exact (parse_date_total isoStub rfcStub 0 hiso hrfc "2024-08-26T15:21:19Z").2.2.1
      1 (by decide) (by rfl) (by rfl)
  · exact (parse_date_total isoStub rfcStub 0 hiso hrfc "").2.1 rfl
  · exact (parse_date_total isoStub rfcStub 0 hiso hrfc "not a date").2.2.2.2.2
      PyExc.valueError (by decide) (by rfl) (Or.inl (by rfl))

/-- Environment for the C1 witness: the semantic oracle scores everything
at `1.0`, so a semantic match would also apply; the hash path must still
win with zero embedding calls. -/
def envBoth : DedupEnv :=
  { score := fun _ _ => 1, threshold := 17 / 20,
    embedFails := false, addFails := false }

/-- Stored original article for the C1 witness. -/
def origW : StoredArticle :=
  { id := 1, title := "T", content := "C", url := "https://e.x/1",
    source := "s", publishedDate := 0, scrapedDate := 0, contentHash := "h",
    isDuplicate := false, duplicateOf := none }

/-- Incoming article for the C1 witness: same content hash as `origW`. -/
def artDupW : StoredArticle :=
  { id := 3, title := "T", content := "C", url := "https://e.x/3",
    source := "s", publishedDate := 0, scrapedDate := 0, contentHash := "h",
    isDuplicate := false, duplicateOf := none }

/-- Store for the C1 witness (query order). -/
def storeW : List StoredArticle := [origW, artDupW]

/-- Vector index for the C1 witness: contains a point that would match
semantically. -/
def idxW : List (Nat × String) := [(1, "T C")]

/-- C1: an article with an exact content-hash match among the stored
records (`find_hash_duplicates` finds one iff such a record exists) is
marked as a duplicate of that match and processing returns immediately:
the vector index is untouched and the embedding service is called zero
times, regardless of what the semantic oracle would say. -/
theorem hash_path_wins (env : DedupEnv) (index : List (Nat × String))
    (store : List StoredArticle) (a : StoredArticle) :
    ((find_hash_duplicates store a).isSome = true
      ↔ ∃ b ∈ store, b.contentHash = a.contentHash ∧ b.id ≠ a.id)
    ∧ ∀ orig, find_hash_duplicates store a = some orig →
        process_article_for_duplicates env index store a
            = ⟨mark_as_hash_duplicate a orig, true, index, 0⟩
        ∧ orig.contentHash = a.contentHash ∧ orig.id ≠ a.id
        ∧ (mark_as_hash_duplicate a orig).isDuplicate = true
        ∧ (mark_as_hash_duplicate a orig).duplicateOf = some orig.id := by
  constructor
  · constructor
    · intro h
      obtain ⟨orig, horig⟩ := Option.isSome_iff_exists.mp h
      have hmem := List.mem_of_mem_head? horig
      have hprop := List.mem_filter.mp hmem
      simp only [Bool.and_eq_true, beq_iff_eq, bne_iff_ne, ne_eq] at hprop
      exact ⟨orig, hprop.1, hprop.2.1, hprop.2.2⟩
    · rintro ⟨b, hb, h1, h2⟩
      have hmem : b ∈ store.filter
          (fun b => b.contentHash == a.contentHash && b.id != a.id) :=
        List.mem_filter.mpr ⟨hb, by simp [h1, h2]⟩
      have hne := List.ne_nil_of_mem hmem
      unfold find_hash_duplicates
      rcases hl : store.filter
          (fun b => b.contentHash == a.contentHash && b.id != a.id) with _ | ⟨x, xs⟩
      · exact absurd hl hne
      · simp [hl]
  · intro orig h
    have hmem := List.mem_of_mem_head? (show (store.filter
        (fun b => b.contentHash == a.contentHash && b.id != a.id)).head?
          = some orig from h)
    have hprop := List.mem_filter.mp hmem
    simp only [Bool.and_eq_true, beq_iff_eq, bne_iff_ne, ne_eq] at hprop
    refine ⟨?_, hprop.2.1, hprop.2.2, rfl, rfl⟩
    simp [process_article_for_duplicates, h]

/-- Witness for C1: with a semantic oracle that would also match, the
hash path wins with zero embedding calls and the index untouched. -/
theorem hash_path_wins_witness :
    process_article_for_duplicates envBoth idxW storeW artDupW
      = ⟨mark_as_hash_duplicate artDupW origW, true, idxW, 0⟩ :=
  ((hash_path_wins envBoth idxW storeW artDupW).2 origW (by decide)).1

/-- Old article for the C2 witness (scraped at time 0). -/
def oldArtW : StoredArticle :=
  { id := 1, title := "old", content := "o", url := "https://e.x/old",
    source := "s", publishedDate := 0, scrapedDate := 0, contentHash := "ho",
    isDuplicate := false, duplicateOf := none }

/-- Fresh article for the C2 witness (scraped at the cutoff). -/
def freshArtW : StoredArticle :=
  { id := 2, title := "new", content := "n", url := "https://e.x/new",
    source := "s", publishedDate := 0, scrapedDate := 100, contentHash := "hn",
    isDuplicate := false, duplicateOf := none }

/-- Pipeline state for the C2 witness. -/
def stCleanW : PipeState :=
  { store := [oldArtW, freshArtW], index := [(1, "old o"), (2, "new n")],
    nextId := 3, embedCallsTotal := 0 }

/-- Clock for the C2 witness: cutoff is 100, so only `oldArtW` is aged. -/
def nowW : Nat := 30 * secondsPerDay + 100

/-- C2: `cleanup_old_articles` selects exactly the records older than the
retention window; every one of them is deleted from the store even when
its vector removal fails (failures never block deletion); newer records
survive; and in the event trace every executed prefix that contains the
row deletion also contains the vector-removal attempt for each deleted
id — so an interruption can only leave a vector already gone while its
row is still present, never a deleted row whose removal was not yet
attempted. -/
theorem cleanup_vector_before_delete (removeOk : Nat → Bool)
    (now days : Nat) (st : PipeState) :
    (cleanup_old_articles removeOk now st days).1
        = (st.store.filter
            (fun a => a.scrapedDate < now - days * secondsPerDay)).length
    ∧ (∀ a ∈ st.store, a.scrapedDate < now - days * secondsPerDay →
        a ∉ (cleanup_old_articles removeOk now st days).2.1.store)
    ∧ (∀ a ∈ st.store, ¬ a.scrapedDate < now - days * secondsPerDay →
        a ∈ (cleanup_old_articles removeOk now st days).2.1.store)
    ∧ (∀ k id,
        (∃ ids, CleanupEvent.deleteRows ids ∈
            ((cleanup_old_articles removeOk now st days).2.2).take k ∧ id ∈ ids) →
        ∃ b, CleanupEvent.removeVector id b ∈
            ((cleanup_old_articles removeOk now st days).2.2).take k) := by
  refine ⟨rfl, ?_, ?_, ?_⟩
  · intro a _ hold hmem
    have h2 := (List.mem_filter.mp hmem).2
    simp only [decide_eq_true_eq] at h2
    exact h2 hold
  · intro a ha hnew
    exact List.mem_filter.mpr ⟨ha, by simpa using hnew⟩
  · intro k id ⟨ids, hdel, hid⟩
    set cutoff := now - days * secondsPerDay with hcut
    set old := st.store.filter (fun a => a.scrapedDate < cutoff) with hold
    set A := old.map (fun a => CleanupEvent.removeVector a.id (removeOk a.id))
      with hA
    have hevts : (cleanup_old_articles removeOk now st days).2.2
        = A ++ [CleanupEvent.deleteRows (old.map (fun a => a.id))] := rfl
    rw [hevts, List.take_append_eq_append_take] at hdel ⊢
    rcases List.mem_append.mp hdel with hinA | hinD
    · exfalso
      have := List.mem_of_mem_take hinA
      rw [hA] at this
      obtain ⟨x, _, habs⟩ := List.mem_map.mp this
      exact CleanupEvent.noConfusion habs
    · rcases hrem : k - A.length with _ | m
      · rw [hrem] at hinD
        simp at hinD
      · rw [hrem] at hinD
        simp only [List.take_succ_cons, List.take_nil, List.mem_singleton] at hinD
        have hids : ids = old.map (fun a => a.id) :=
          CleanupEvent.deleteRows.inj hinD
        have hk : A.length ≤ k := by omega
        rw [hids] at hid
        obtain ⟨x, hx, hxid⟩ := List.mem_map.mp hid
        refine ⟨removeOk id, List.mem_append.mpr (Or.inl ?_)⟩
        rw [List.take_of_length_le hk, hA]
        have := List.mem_map_of_mem
          (fun a => CleanupEvent.removeVector a.id (removeOk a.id)) hx
        subst hxid
        simpa using this

/-- Witness for C2 at a concrete two-article state with every vector
removal failing: the aged row is still deleted, the fresh row survives,
the count is 1, and the executed prefix containing the row deletion also
contains the removal attempt for the deleted id. -/
theorem cleanup_vector_before_delete_witness :
    freshArtW ∈
      (cleanup_old_articles (fun _ => false) nowW stCleanW 30).2.1.store
    ∧ oldArtW ∉
      (cleanup_old_articles (fun _ => false) nowW stCleanW 30).2.1.store
    ∧ (cleanup_old_articles (fun _ => false) nowW stCleanW 30).1 = 1
    ∧ (∃ b, CleanupEvent.removeVector 1 b ∈
        ((cleanup_old_articles (fun _ => false) nowW stCleanW 30).2.2).take 2) := by
  refine ⟨?_, ?_, ?_, ?_⟩
  · exact (cleanup_vector_before_delete (fun _ => false) nowW 30 stCleanW).2.2.1
      freshArtW (by decide) (by decide)
  · exact (cleanup_vector_before_delete (fun _ => false) nowW 30 stCleanW).2.1
      oldArtW (by decide) (by decide)
  · exact ((cleanup_vector_before_delete (fun _ => false) nowW 30 stCleanW).1).trans
      (by decide)
  · exact (cleanup_vector_before_delete (fun _ => false) nowW 30 stCleanW).2.2.2
      2 1 ⟨[1], by decide, by decide⟩

/-- Names of the per-source result entries produced by a batch run: one
entry per source, in order (helper for C3). -/
theorem scrape_all_sources_names (env : DedupEnv) (now : Nat)
    (sources : List (String × Except String (List RawArticle)))
    (acc : List (String × Nat)) (st : PipeState) :
    (sources.foldl
      (fun acc src =>
        let r := scrape_single_source env now src.2 acc.2
        (acc.1 ++ [(src.1, r.1)], r.2))
      (acc, st)).1.map Prod.fst
      = acc.map Prod.fst ++ sources.map Prod.fst := by
  induction sources generalizing acc st with
  | nil => simp
  | cons src rest ih =>
      simp only [List.foldl_cons, List.map_cons]
      rw [ih]
      simp

/-- C3: a fetch error in one source never aborts the batch and leaves the
other sources' results unchanged: with three sources of which the second
throws, the returned map is exactly the map of the run without the
failing source, with a `0` entry interposed for it; and every batch run
returns one entry per registered source. -/
theorem source_isolation (env : DedupEnv) (now : Nat) (n1 n2 n3 e : String)
    (f1 f3 : Except String (List RawArticle)) (st : PipeState) :
    scrape_all_sources env now [(n1, f1), (n2, .error e), (n3, f3)] st
      = ([(n1, (scrape_single_source env now f1 st).1),
          (n2, 0),
          (n3, (scrape_single_source env now f3
                  (scrape_single_source env now f1 st).2).1)],
         (scrape_single_source env now f3
            (scrape_single_source env now f1 st).2).2)
    ∧ (∀ sources st0,
        ((scrape_all_sources env now sources st0).1).map Prod.fst
          = sources.map Prod.fst)
    ∧ (∀ st0, scrape_single_source env now (.error e) st0 = (0, st0)) := by
  refine ⟨rfl, ?_, fun _ => rfl⟩
  intro sources st0
  unfold scrape_all_sources
  simpa using scrape_all_sources_names env now sources [] st0

/-- C8: when the embedding service and vector index raise during semantic
deduplication of a fresh article (no URL or hash duplicate), the article
is still persisted in the store, keeps `is_duplicate = false` with no
`duplicate_of`, is left unindexed (vector index unchanged), and the
failure does not propagate: the per-record step completes and counts the
article. -/
theorem semantic_failure_degraded (env : DedupEnv) (now c : Nat)
    (st : PipeState) (raw : RawArticle)
    (hurl : st.store.any (fun b => b.url == raw.url) = false)
    (hhash : ∀ b ∈ st.store,
        b.contentHash ≠ ((mkArticle st.nextId now raw).save).contentHash)
    (hemb : env.embedFails = true) (hadd : env.addFails = true) :
    processRawArticle env now (c, st) raw
      = (c + 1,
         { store := st.store ++ [(mkArticle st.nextId now raw).save]
           index := st.index
           nextId := st.nextId + 1
           embedCallsTotal := st.embedCallsTotal + 2 })
    ∧ ((mkArticle st.nextId now raw).save).isDuplicate = false
    ∧ ((mkArticle st.nextId now raw).save).duplicateOf = none := by
  set a := (mkArticle st.nextId now raw).save with ha
  have hflags : a.isDuplicate = false ∧ a.duplicateOf = none := by
    rw [ha]
    unfold StoredArticle.save
    split <;> exact ⟨rfl, rfl⟩
  have hfil : (st.store ++ [a]).filter
      (fun b => b.contentHash == a.contentHash && b.id != a.id) = [] := by
    rw [List.filter_eq_nil_iff]
    intro b hb
    rcases List.mem_append.mp hb with hb | hb
    · simp [hhash b hb]
    · simp [List.mem_singleton.mp hb]
  have hfh : find_hash_duplicates (st.store ++ [a]) a = none := by
    unfold find_hash_duplicates
    rw [hfil]
    rfl
  have hsim : find_similar_articles env st.index (st.store ++ [a]) a 5 = [] := by
    unfold find_similar_articles
    rw [hemb]
    rfl
  have hproc : process_article_for_duplicates env st.index (st.store ++ [a]) a
      = ⟨a, false, st.index, 2⟩ := by
    unfold process_article_for_duplicates check_and_mark_duplicates
    rw [hfh, hsim]
    unfold add_article_to_index
    rw [hadd]
    rfl
  refine ⟨?_, hflags.1, hflags.2⟩
  unfold processRawArticle
  simp only [hurl, Bool.false_eq_true, if_false, hproc]

/-- Failing external environment for the C8 witness: every call to the
embedding service or the vector index raises. -/
def envFailW : DedupEnv :=
  { score := fun _ _ => 1, threshold := 17 / 20,
    embedFails := true, addFails := true }

/-- Pre-existing state for the C8 witness. -/
def stFailW : PipeState :=
  { store := [origW], index := [(1, "T C")], nextId := 7,
    embedCallsTotal := 0 }

/-- Fresh raw article for the C8 witness. -/
def rawFailW : RawArticle :=
  { title := "Fresh", content := "body", url := "https://e.x/fresh",
    source := "s", publishedDate := some 5 }

/-- Witness for C8: with both external calls raising, the fresh article is
persisted unmarked and unindexed and the step completes. -/
theorem semantic_failure_degraded_witness :
    processRawArticle envFailW 9 (0, stFailW) rawFailW
      = (1,
         { store := stFailW.store ++ [(mkArticle stFailW.nextId 9 rawFailW).save]
           index := stFailW.index
           nextId := stFailW.nextId + 1
           embedCallsTotal := stFailW.embedCallsTotal + 2 })
    ∧ ((mkArticle stFailW.nextId 9 rawFailW).save).isDuplicate = false
    ∧ ((mkArticle stFailW.nextId 9 rawFailW).save).duplicateOf = none :=
  semantic_failure_degraded envFailW 9 0 stFailW rawFailW (by decide)
    (by decide) rfl rfl

/-- Deduplication only touches the duplicate flags: the processed
article keeps its URL (helper for C6). -/
theorem process_article_url_eq (env : DedupEnv) (index : List (Nat × String))
    (store : List StoredArticle) (a : StoredArticle) :
    (process_article_for_duplicates env index store a).article.url = a.url := by
  unfold process_article_for_duplicates check_and_mark_duplicates
  rcases h : find_hash_duplicates store a with _ | orig <;> simp only [h]
  · rcases hs : find_similar_articles env index store a 5 with _ | ⟨⟨o, sc⟩, rest⟩ <;>
      simp only [hs]
  · rfl

/-- Processing a raw article can only grow the set of stored URLs
(helper for C6). -/
theorem processRaw_url_mono (env : DedupEnv) (now : Nat)
    (acc : Nat × PipeState) (raw : RawArticle) (u : String)
    (h : ∃ b ∈ acc.2.store, b.url = u) :
    ∃ b ∈ (processRawArticle env now acc raw).2.store, b.url = u := by
  unfold processRawArticle
  split
  · exact h
  · obtain ⟨b, hb, hbu⟩ := h
    exact ⟨b, List.mem_append.mpr (Or.inl hb), hbu⟩

/-- After processing a raw article, its URL is in the store
(helper for C6). -/
theorem processRaw_url_present (env : DedupEnv) (now : Nat)
    (acc : Nat × PipeState) (raw : RawArticle) :
    ∃ b ∈ (processRawArticle env now acc raw).2.store, b.url = raw.url := by
  unfold processRawArticle
  split
  · next hcond =>
      obtain ⟨b, hb, hbu⟩ := List.any_eq_true.mp hcond
      exact ⟨b, hb, by simpa using hbu⟩
  · refine ⟨_, List.mem_append.mpr (Or.inr (List.mem_singleton.mpr rfl)), ?_⟩
    rw [process_article_url_eq]
    unfold StoredArticle.save mkArticle
    split <;> rfl

/-- URL-presence is preserved by the per-source fold (helper for C6). -/
theorem fold_url_mono (env : DedupEnv) (now : Nat) (raws : List RawArticle)
    (acc : Nat × PipeState) (u : String)
    (h : ∃ b ∈ acc.2.store, b.url = u) :
    ∃ b ∈ (raws.foldl (processRawArticle env now) acc).2.store, b.url = u := by
  induction raws generalizing acc with
  | nil => exact h
  | cons raw rest ih => exact ih _ (processRaw_url_mono env now acc raw u h)

/-- After a source run, every fetched URL is in the store
(helper for C6). -/
theorem fold_url_present (env : DedupEnv) (now : Nat) (raws : List RawArticle)
    (acc : Nat × PipeState) (raw : RawArticle) (h : raw ∈ raws) :
    ∃ b ∈ (raws.foldl (processRawArticle env now) acc).2.store,
      b.url = raw.url := by
  induction raws generalizing acc with
  | nil => cases h
  | cons r rest ih =>
      rcases List.mem_cons.mp h with heq | h2
      · subst heq
        exact fold_url_mono env now rest _ raw.url
          (processRaw_url_present env now acc raw)
      · exact ih _ h2

/-- A run over raw articles whose URLs are all already stored is a no-op
(helper for C6). -/
theorem fold_skip_all (env : DedupEnv) (now : Nat) (raws : List RawArticle)
    (acc : Nat × PipeState)
    (h : ∀ raw ∈ raws, ∃ b ∈ acc.2.store, b.url = raw.url) :
    raws.foldl (processRawArticle env now) acc = acc := by
  induction raws generalizing acc with
  | nil => rfl
  | cons raw rest ih =>
      have hskip : processRawArticle env now acc raw = acc := by
        obtain ⟨b, hb, hbu⟩ := h raw (List.mem_cons_self _ _)
        unfold processRawArticle
        rw [if_pos (List.any_eq_true.mpr ⟨b, hb, by simp [hbu]⟩)]
      rw [List.foldl_cons, hskip]
      exact ih acc (fun r hr => h r (List.mem_cons_of_mem _ hr))

/-- C6: running a source a second time against an unchanged feed adds
zero records and leaves the entire pipeline state unchanged (store,
vector index, embedding-call counter): after the first run every raw
record's URL is present in the store, so the URL fast path skips each
record before any hashing or embedding work. -/
theorem rerun_adds_nothing (env : DedupEnv) (now : Nat)
    (raws : List RawArticle) (st : PipeState) :
    scrape_single_source env now (.ok raws)
        (scrape_single_source env now (.ok raws) st).2
      = (0, (scrape_single_source env now (.ok raws) st).2) := by
  unfold scrape_single_source
  exact fold_skip_all env now raws _
    (fun raw hr => fold_url_present env now raws (0, st) raw hr)

/-- The sort step of the modelled vector search really orders hits by
descending score (helper for C4). -/
theorem sortByScoreDesc_sorted (l : List (Nat × Rat)) :
    (sortByScoreDesc l).Pairwise (fun p q : Nat × Rat => q.2 ≤ p.2) := by
  haveI : IsTotal (Nat × Rat) (fun p q => q.2 ≤ p.2) :=
    ⟨fun x y => le_total y.2 x.2⟩
  haveI : IsTrans (Nat × Rat) (fun p q => q.2 ≤ p.2) :=
    ⟨fun x y z hxy hyz => le_trans hyz hxy⟩
  exact List.sorted_insertionSort _ l

/-- Search hits are ordered by descending score (helper for C4). -/
theorem search_hits_sorted (index : List (Nat × String))
    (score : String → String → Rat) (threshold : Rat) (q : String) (k : Nat) :
    (similarity_search_with_relevance_scores index score threshold q k).Pairwise
      (fun p q : Nat × Rat => q.2 ≤ p.2) := by
  unfold similarity_search_with_relevance_scores
  exact (sortByScoreDesc_sorted _).sublist (List.take_sublist _ _)

/-- Every search hit scores at or above the threshold (helper for C4). -/
theorem search_hits_threshold (index : List (Nat × String))
    (score : String → String → Rat) (threshold : Rat) (q : String) (k : Nat) :
    ∀ h ∈ similarity_search_with_relevance_scores index score threshold q k,
      threshold ≤ h.2 := by
  intro h hm
  unfold similarity_search_with_relevance_scores sortByScoreDesc at hm
  have h1 := List.mem_of_mem_take hm
  rw [List.mem_insertionSort] at h1
  have h2 := List.of_mem_filter h1
  simpa using h2

/-- A score-preserving `filterMap` keeps the descending-score ordering
(helper for C4). -/
theorem pairwise_filterMap_scores
    (f : Nat × Rat → Option (StoredArticle × Rat))
    (hf : ∀ x y, f x = some y → y.2 = x.2) (l : List (Nat × Rat))
    (hl : l.Pairwise (fun p q => q.2 ≤ p.2)) :
    (l.filterMap f).Pairwise (fun p q : StoredArticle × Rat => q.2 ≤ p.2) := by
  induction l with
  | nil => simp
  | cons x xs ih =>
      rcases List.pairwise_cons.mp hl with ⟨hx, hxs⟩
      rcases hfx : f x with _ | y
      · simpa [List.filterMap_cons, hfx] using ih hxs
      · rw [List.filterMap_cons, hfx]
        refine List.pairwise_cons.mpr ⟨?_, ih hxs⟩
        intro z hz
        obtain ⟨w, hw, hfw⟩ := List.mem_filterMap.mp hz
        rw [hf w z hfw, hf x y hfx]
        exact hx w hw

/-- Exactly `0.85`, built without `Rat` division so it reduces in the
kernel. -/
def hiScore : Rat := Rat.mk' 17 20 (by decide) (by decide)

/-- Exactly `0.8499`. -/
def loScore : Rat := Rat.mk' 8499 10000 (by decide) (by decide)

/-- Boundary-witness environment: oracle score `0.85`, threshold `0.85`. -/
def envHiB : DedupEnv :=
  { score := fun _ _ => hiScore, threshold := hiScore,
    embedFails := false, addFails := false }

/-- Boundary-witness environment: oracle score `0.8499`, threshold `0.85`. -/
def envLoB : DedupEnv :=
  { score := fun _ _ => loScore, threshold := hiScore,
    embedFails := false, addFails := false }

/-- Stored candidate original for the C4 boundary check. -/
def artOrigB : StoredArticle :=
  { id := 2, title := "t2", content := "c2", url := "https://e.x/2",
    source := "s", publishedDate := 0, scrapedDate := 0, contentHash := "h2",
    isDuplicate := false, duplicateOf := none }

/-- Incoming article for the C4 boundary check. -/
def artNewB : StoredArticle :=
  { id := 1, title := "t1", content := "c1", url := "https://e.x/1",
    source := "s", publishedDate := 0, scrapedDate := 0, contentHash := "h1",
    isDuplicate := false, duplicateOf := none }

/-- Vector index for the C4 boundary check. -/
def idxB : List (Nat × String) := [(2, "t2 c2")]

/-- C4: with the external services up, an article is marked as a semantic
duplicate iff the similarity search returns at least one hit at or above
the threshold whose id is truthy, differs from the article's own id, and
still exists in the store; all hits meet the threshold; when marked, the
article's `duplicate_of` is the top-scoring hit (all later hits score no
higher); an unmarked article is returned unchanged; and at the default
threshold `0.85`, a score of exactly `0.85` is a duplicate while `0.8499`
is not. -/
theorem semantic_duplicate_iff (env : DedupEnv) (index : List (Nat × String))
    (store : List StoredArticle) (a : StoredArticle)
    (henv : env.embedFails = false) :
    ((check_and_mark_duplicates env index store a).2 = true
      ↔ ∃ h ∈ similarity_search_with_relevance_scores index env.score
            env.threshold (create_searchable_text a) 5,
          h.1 ≠ 0 ∧ h.1 ≠ a.id ∧ ∃ b ∈ store, b.id = h.1)
    ∧ (∀ h ∈ similarity_search_with_relevance_scores index env.score
          env.threshold (create_searchable_text a) 5, env.threshold ≤ h.2)
    ∧ (∀ orig sc rest,
        find_similar_articles env index store a 5 = (orig, sc) :: rest →
          (check_and_mark_duplicates env index store a).1.isDuplicate = true
          ∧ (check_and_mark_duplicates env index store a).1.duplicateOf
              = some orig.id
          ∧ ∀ q ∈ rest, q.2 ≤ sc)
    ∧ ((check_and_mark_duplicates env index store a).2 = false →
        (check_and_mark_duplicates env index store a).1 = a)
    ∧ (check_and_mark_duplicates envHiB idxB [artOrigB] artNewB).2 = true
    ∧ (check_and_mark_duplicates envHiB idxB [artOrigB] artNewB).1.duplicateOf
        = some 2
    ∧ (check_and_mark_duplicates envLoB idxB [artOrigB] artNewB).2 = false := by
  have hfs_eq : find_similar_articles env index store a 5
      = (similarity_search_with_relevance_scores index env.score env.threshold
          (create_searchable_text a) 5).filterMap
        (fun h =>
          if h.1 ≠ 0 ∧ h.1 ≠ a.id then
            match store.find? (fun b => b.id == h.1) with
            | some b => some (b, h.2)
            | none => none
          else none) := by
    unfold find_similar_articles
    rw [henv]
    rfl
  have hcheck : (check_and_mark_duplicates env index store a).2 = true
      ↔ find_similar_articles env index store a 5 ≠ [] := by
    unfold check_and_mark_duplicates
    rcases hfs : find_similar_articles env index store a 5
      with _ | ⟨⟨o, sc⟩, rest⟩ <;> simp [hfs]
  refine ⟨?_, search_hits_threshold index env.score env.threshold
      (create_searchable_text a) 5, ?_, ?_, by decide, by decide, by decide⟩
  · rw [hcheck, hfs_eq]
    constructor
    · intro hne
      rcases hl : (similarity_search_with_relevance_scores index env.score
          env.threshold (create_searchable_text a) 5).filterMap _
        with _ | ⟨p, rest⟩
      · exact absurd hl hne
      · have hp := hl ▸ List.mem_cons_self p rest
        obtain ⟨x, hx, hfx⟩ := List.mem_filterMap.mp hp
        by_cases hc : x.1 ≠ 0 ∧ x.1 ≠ a.id
        · rw [if_pos hc] at hfx
          rcases hfind : store.find? (fun b => b.id == x.1) with _ | b
          · rw [hfind] at hfx
            cases hfx
          · refine ⟨x, hx, hc.1, hc.2, b, List.mem_of_find?_eq_some hfind, ?_⟩
            simpa using List.find?_some hfind
        · rw [if_neg hc] at hfx
          cases hfx
    · rintro ⟨x, hx, h0, hid, b, hb, hbid⟩ hnil
      have hfx := List.filterMap_eq_nil_iff.mp hnil x hx
      rw [if_pos ⟨h0, hid⟩] at hfx
      rcases hfind : store.find? (fun c => c.id == x.1) with _ | b2
      · have := List.find?_eq_none.mp hfind b hb
        simp [hbid] at this
      · rw [hfind] at hfx
        cases hfx
  · intro orig sc rest hfs
    have hsorted : (find_similar_articles env index store a 5).Pairwise
        (fun p q : StoredArticle × Rat => q.2 ≤ p.2) := by
      rw [hfs_eq]
      refine pairwise_filterMap_scores _ ?_ _
        (search_hits_sorted index env.score env.threshold
          (create_searchable_text a) 5)
      intro x y hxy
      by_cases hc : x.1 ≠ 0 ∧ x.1 ≠ a.id
      · rw [if_pos hc] at hxy
        rcases hfind : store.find? (fun b => b.id == x.1) with _ | b <;>
          rw [hfind] at hxy
        · cases hxy
        · cases hxy
          rfl
      · rw [if_neg hc] at hxy
        cases hxy
    rw [hfs] at hsorted
    have hrest := (List.pairwise_cons.mp hsorted).1
    unfold check_and_mark_duplicates
    simp only [hfs]
    exact ⟨trivial, trivial, hrest⟩
  · intro hfalse
    unfold check_and_mark_duplicates at hfalse ⊢
    rcases hfs : find_similar_articles env index store a 5
      with _ | ⟨⟨o, sc⟩, r⟩ <;> simp only [hfs] at hfalse ⊢
    cases hfalse

/-- Witness for C4: the boundary facts extracted from the theorem at a
concrete environment. -/
theorem semantic_duplicate_iff_witness :
    (check_and_mark_duplicates envHiB idxB [artOrigB] artNewB).2 = true
    ∧ (check_and_mark_duplicates envLoB idxB [artOrigB] artNewB).2 = false :=
  ⟨(semantic_duplicate_iff envHiB idxB [artOrigB] artNewB rfl).2.2.2.2.1,
   (semantic_duplicate_iff envHiB idxB [artOrigB] artNewB rfl).2.2.2.2.2.2⟩

end AgentAINews
